import Mathlib

/-!
Verification of the inter-process task/message coordination layer of the
BYASE-GUI repository: the queue-based message center
(`byase_gui/message.py`), the worker-side supervisor loop and child work
function (`byase_gui/task.py`), and the controller-side output poller
(`byase_gui/long_running.py`).

Queues are modelled as lists: `put` appends at the tail, `get` removes the
head, so the head is the oldest item.  Stateful Python methods become pure
functions on an explicit `MCState`.  The external collaborator functions
(the byase library's analysis routines) are opaque to this core; a
collaborator run is modelled by a `CollabBehaviour` record saying which
events it emits through the message center and whether it raises.
-/

namespace ByaseGui

/-- Opaque result payload carried by a `data` event (`byase_gui/message.py`,
`OutputItem.data`).  The core never inspects its structure; a tag plus an
optional pair component is enough to mirror every call site
(a table, a pair of tables, a tuple such as `('html path', path)`). -/
inductive Payload where
  | tag (s : String) : Payload
  | pair (s : String) (p : Payload) : Payload
deriving DecidableEq, Repr

/-- `Instruction` enum from `byase_gui/message.py` (lines 54-56): a closed
enum with the single variant `TERMINATE`. -/
inductive Instruction where
  | TERMINATE : Instruction
deriving DecidableEq, Repr

/-- A value stored in a `params` dict.  The only structure the coordination
core itself reads back out of `params` is the message-center reference
stored under the key `'mc'`; a message center is identified by a numeric
id, other values are opaque strings. -/
inductive ParamValue where
  | str (s : String) : ParamValue
  | mcRef (id : Nat) : ParamValue
deriving DecidableEq, Repr

/-- A Python dict of parameters, modelled as an association list
(first binding of a key wins on lookup, assignment overwrites in place). -/
abbrev Params := List (String × ParamValue)

/-- Dict lookup `params[k]`: first binding of `k`, `none` if absent
(a `none` here corresponds to a `KeyError` in Python). -/
def lookupParam (k : String) : Params → Option ParamValue
  | [] => none
  | (k1, v) :: rest => if k1 = k then some v else lookupParam k rest

/-- Dict assignment `params[k] = v`: overwrite the first binding of `k`
in place, or append a new binding if `k` is absent. -/
def setParam (k : String) (v : ParamValue) : Params → Params
  | [] => [(k, v)]
  | (k1, v1) :: rest =>
      if k1 = k then (k1, v) :: rest else (k1, v1) :: setParam k v rest

/-- `InputItem` from `byase_gui/message.py` (lines 36-40): a tool name and
its params dict. -/
structure InputItem where
  tool : String
  params : Params
deriving DecidableEq, Repr

/-- `OutputItem` from `byase_gui/message.py` (lines 43-51): the record
passed on the output queue.  Defaults in the Python constructor are
`None` for the four optional fields and `False` for the two flags. -/
structure OutputItem where
  log : Option String := none
  data : Option Payload := none
  progress_msg : Option String := none
  progress : Option Nat := none
  task_started : Bool := false
  task_finished : Bool := false
deriving DecidableEq, Repr

/-- `OutputItem(log=log)` as built in `_handle_log`. -/
def logItem (s : String) : OutputItem := { log := some s }

/-- `OutputItem(data=data)` as built in `handle_data`. -/
def dataItem (p : Payload) : OutputItem := { data := some p }

/-- `OutputItem(progress_msg=msg, progress=progress)` as built in
`handle_progress`. -/
def progressItem (msg : String) (v : Option Nat) : OutputItem :=
  { progress_msg := some msg, progress := v }

/-- `OutputItem(task_started=True)` as built in `signal_task_started`. -/
def startedItem : OutputItem := { task_started := true }

/-- `OutputItem(task_finished=True)` as built in `signal_task_finished`. -/
def finishedItem : OutputItem := { task_finished := true }

/-- State of a `QueueMessageCenter` (`byase_gui/message.py`, lines 59-117):
the three FIFO queues, plus the base class's own persistent side effects.
The base class `byase.message.MessageCenter` is an external collaborator
(not part of this repository); modelled from the spec: each `handle_*`
override "performs the center's own side effect (e.g. writing to a
persistent log)" via its `super()` call, recorded here in the three
`base_*` traces, and `log_error` appends to `base_errors`. -/
structure MCState where
  instruction_queue : List Instruction
  input_queue : List InputItem
  output_queue : List OutputItem
  base_log : List String
  base_progress : List (String × Option Nat)
  base_data : List Payload
  base_errors : List String
deriving DecidableEq, Repr

/-- `QueueMessageCenter._handle_log` (message.py lines 74-76): perform the
base class's log side effect, then put `OutputItem(log=log)` on the
output queue. -/
def handle_log (st : MCState) (line : String) : MCState :=
  let st1 := { st with base_log := st.base_log ++ [line] }
  { st1 with output_queue := st1.output_queue ++ [logItem line] }

/-- `QueueMessageCenter.handle_progress` (message.py lines 78-80): perform
the base class's progress side effect, then put
`OutputItem(progress_msg=msg, progress=progress)` on the output queue. -/
def handle_progress (st : MCState) (msg : String) (v : Option Nat) : MCState :=
  let st1 := { st with base_progress := st.base_progress ++ [(msg, v)] }
  { st1 with output_queue := st1.output_queue ++ [progressItem msg v] }

/-- `QueueMessageCenter.handle_data` (message.py lines 82-84): perform the
base class's data side effect, then put `OutputItem(data=data)` on the
output queue. -/
def handle_data (st : MCState) (p : Payload) : MCState :=
  let st1 := { st with base_data := st.base_data ++ [p] }
  { st1 with output_queue := st1.output_queue ++ [dataItem p] }

/-- `QueueMessageCenter.signal_task_started` (message.py lines 86-88). -/
def signal_task_started (st : MCState) : MCState :=
  { st with output_queue := st.output_queue ++ [startedItem] }

/-- `QueueMessageCenter.signal_task_finished` (message.py lines 90-92). -/
def signal_task_finished (st : MCState) : MCState :=
  { st with output_queue := st.output_queue ++ [finishedItem] }

/-- `QueueMessageCenter.send_input` (message.py lines 94-96). -/
def send_input (st : MCState) (tool : String) (params : Params) : MCState :=
  { st with input_queue := st.input_queue ++ [InputItem.mk tool params] }

/-- `QueueMessageCenter.receive_output` (message.py lines 103-108):
non-blocking; if the output queue is empty return `None`, otherwise get
(and remove) the oldest queued item. -/
def receive_output (st : MCState) : Option OutputItem × MCState :=
  match st.output_queue with
  | [] => (none, st)
  | item :: rest => (some item, { st with output_queue := rest })

/-- `QueueMessageCenter.send_instruction` (message.py lines 110-111). -/
def send_instruction (st : MCState) (i : Instruction) : MCState :=
  { st with instruction_queue := st.instruction_queue ++ [i] }

/-- `QueueMessageCenter.receive_instruction` (message.py lines 113-117):
non-blocking; if the instruction queue is empty return `None`, otherwise
get (and remove) the oldest queued instruction. -/
def receive_instruction (st : MCState) : Option Instruction × MCState :=
  match st.instruction_queue with
  | [] => (none, st)
  | i :: rest => (some i, { st with instruction_queue := rest })

/-- An event the collaborator emits through the message center while it
runs inside the child.  Collaborators only reach the output queue via
`mc.handle_log` / `mc.handle_progress` / `mc.handle_data` (this includes
the helper `_load_task`, task.py line 65, whose single `handle_data` call
is folded into the collaborator's event list). -/
inductive ChildEmit where
  | logLine (s : String) : ChildEmit
  | progressMsg (msg : String) (v : Option Nat) : ChildEmit
  | dataPayload (p : Payload) : ChildEmit
deriving DecidableEq, Repr

/-- The `OutputItem` a `ChildEmit` puts on the output queue, per the
`QueueMessageCenter` handlers. -/
def ChildEmit.toItem : ChildEmit → OutputItem
  | .logLine s => logItem s
  | .progressMsg msg v => progressItem msg v
  | .dataPayload p => dataItem p

/-- One run of the external collaborator function dispatched by `work`
(byase library calls: opaque to this core).  `events` are the emissions it
makes through the message center before returning or raising; `error` is
`some e` when the collaborator raises exception `e`; `statsPaths` is the
return value of `stats` and `htmlPath` the return value of `plot_task`
(used by the `stats` / `plot` branches of `work`). -/
structure CollabBehaviour where
  events : List ChildEmit
  error : Option String
  statsPaths : Payload := Payload.tag "stats-paths"
  htmlPath : Payload := Payload.tag "html"
deriving DecidableEq, Repr

/-- The tool names recognized by the `if`/`elif` dispatch chain in `work`
(task.py lines 93-106). -/
def recognizedTools : List String :=
  ["gen-task", "load-task", "inference", "resume", "stats", "plot"]

/-- The `try` body of `work` (task.py lines 93-106): dispatch `tool`
against the `if`/`elif` chain.  Returns the events emitted through the
message center by the dispatched call and `some e` if it raised `e`.
The `stats` branch additionally calls `_load_stats`, whose single
`mc.handle_data` call (task.py line 87) emits the loaded pair; the `plot`
branch calls `mc.handle_data(('html path', html_path))` (task.py
line 106).  A tool name matching no branch runs nothing and raises
nothing. -/
def workTryBody (tool : String) (beh : CollabBehaviour) :
    List OutputItem × Option String :=
  if tool = "gen-task" ∨ tool = "load-task" ∨ tool = "inference"
      ∨ tool = "resume" then
    (beh.events.map ChildEmit.toItem, beh.error)
  else if tool = "stats" then
    match beh.error with
    | some e => (beh.events.map ChildEmit.toItem, some e)
    | none => (beh.events.map ChildEmit.toItem ++ [dataItem beh.statsPaths], none)
  else if tool = "plot" then
    match beh.error with
    | some e => (beh.events.map ChildEmit.toItem, some e)
    | none =>
        (beh.events.map ChildEmit.toItem
          ++ [dataItem (Payload.pair "html path" beh.htmlPath)], none)
  else ([], none)

/-- Observable outcome of one run of `work` inside the child process:
the `OutputItem`s it put on the output queue in order, the errors passed
to `mc.log_error`, the message-center reference it resolved from
`params['mc']`, and whether an exception escaped `work` itself. -/
structure WorkResult where
  events : List OutputItem
  logged : List String
  usedMC : Option ParamValue
  raised : Bool
deriving DecidableEq, Repr

/-- `work` from task.py lines 90-112.  First the unguarded
`mc = params['mc']` lookup (line 91, outside the `try`: a missing key
raises an uncaught `KeyError`).  Then the dispatch chain inside
`try`/`except`/`else`: on an exception from the dispatched call, emit
`handle_progress('Error occurred!')`, call `mc.log_error(e)` and swallow
the exception; on normal return, emit
`handle_progress('Process completed!')`. -/
def work (tool : String) (params : Params) (beh : CollabBehaviour) :
    WorkResult :=
  match lookupParam "mc" params with
  | none => { events := [], logged := [], usedMC := none, raised := true }
  | some mc =>
    let body := workTryBody tool beh
    match body.2 with
    | some e =>
        { events := body.1 ++ [progressItem "Error occurred!" none],
          logged := [e], usedMC := some mc, raised := false }
    | none =>
        { events := body.1 ++ [progressItem "Process completed!" none],
          logged := [], usedMC := some mc, raised := false }

/-- One observable step of the supervisor loop `task` (task.py
lines 115-141), in program order. -/
inductive SupAction where
  | assignMC : SupAction
  | emitStarted : SupAction
  | spawnChild : SupAction
  | sleepTick : SupAction
  | pollInstr (found : Option Instruction) : SupAction
  | killDescendant (pid : Nat) : SupAction
  | terminateChild : SupAction
  | emitProgress (msg : String) : SupAction
  | joinChild : SupAction
  | emitFinished : SupAction
deriving DecidableEq, Repr

/-- Result of the supervisor's inner polling loop (task.py
lines 127-135). -/
structure LoopResult where
  actions : List SupAction
  events : List OutputItem
  instrQ : List Instruction
  killed : Bool
deriving DecidableEq, Repr

/-- The inner `while work_process.is_alive()` loop of `task` (task.py
lines 127-135), at one-poll-tick granularity.  `life` is the number of
aliveness checks the child would pass before exiting naturally; `instrQ`
the instruction-queue content when the loop starts; `arrivals` gives the
instructions enqueued by the controller during each successive sleep.
Each alive tick: sleep, then `receive_instruction()`; since `TERMINATE`
is the only `Instruction` variant, any dequeued instruction triggers the
kill branch: kill every descendant of the child (`psutil` recursive
children, in order), terminate the child, emit
`handle_progress('Process terminated!')` and break. -/
def supLoop (descendants : List Nat) :
    Nat → List Instruction → List (List Instruction) → LoopResult
  | 0, q, _ => { actions := [], events := [], instrQ := q, killed := false }
  | life + 1, q, arrivals =>
    match q ++ arrivals.headD [] with
    | [] =>
      let r := supLoop descendants life [] arrivals.tail
      { r with actions := SupAction.sleepTick :: SupAction.pollInstr none :: r.actions }
    | Instruction.TERMINATE :: rest =>
      { actions :=
          [SupAction.sleepTick, SupAction.pollInstr (some Instruction.TERMINATE)]
            ++ descendants.map SupAction.killDescendant
            ++ [SupAction.terminateChild,
                SupAction.emitProgress "Process terminated!"],
        events := [progressItem "Process terminated!" none],
        instrQ := rest,
        killed := true }

/-- Result of one iteration of the supervisor loop body. -/
structure IterResult where
  actions : List SupAction
  outputs : List OutputItem
  childParams : Params
  instrQ : List Instruction
  killed : Bool
deriving DecidableEq, Repr

/-- One iteration of the `while True` body of `task` (task.py
lines 117-140), for the input item just dequeued by `receive_input`.
In program order: `params['mc'] = mc`, `signal_task_started()`, spawn the
child `Process(target=work, ...)`, run the inner polling loop, join, and
`signal_task_finished()`.  `mcId` identifies the supervisor's own message
center; `childEvents` are the items the child put on the output queue
before exiting or being killed (all of them are enqueued after
`task_started` — the child only starts after that signal — and before the
supervisor's own loop emissions, which happen only once the child is
dead). -/
def taskIteration (mcId : Nat) (item : InputItem)
    (childEvents : List OutputItem) (life : Nat)
    (instrQ : List Instruction) (arrivals : List (List Instruction))
    (descendants : List Nat) : IterResult :=
  let lr := supLoop descendants life instrQ arrivals
  { actions :=
      [SupAction.assignMC, SupAction.emitStarted, SupAction.spawnChild]
        ++ lr.actions ++ [SupAction.joinChild, SupAction.emitFinished],
    outputs := startedItem :: (childEvents ++ lr.events ++ [finishedItem]),
    childParams := setParam "mc" (ParamValue.mcRef mcId) item.params,
    instrQ := lr.instrQ,
    killed := lr.killed }

/-- One observable action of the controller poller
(`LongRunningTaskPanel.on_timer`, long_running.py lines 70-91), in program
order within the handling of one `OutputItem`. -/
inductive PollerAction where
  | appendLog (s : String) : PollerAction
  | dispatchData (p : Payload) : PollerAction
  | dispatchProgressMsg (s : String) : PollerAction
  | dispatchProgressVal (v : Nat) : PollerAction
  | dispatchStarted : PollerAction
  | stopTimer : PollerAction
  | dispatchFinished : PollerAction
deriving DecidableEq, Repr

/-- The body of the drain loop in `on_timer` for one dequeued item
(long_running.py lines 78-91): append the log line if present, then
`handle_data`, then `handle_progress_msg`, then `handle_progress`, then
`handle_task_started` if flagged, and if `task_finished` is flagged stop
the timer and call `handle_task_finished`. -/
def dispatchItem (item : OutputItem) : List PollerAction :=
  (match item.log with
    | some s => [PollerAction.appendLog s]
    | none => [])
  ++ (match item.data with
    | some p => [PollerAction.dispatchData p]
    | none => [])
  ++ (match item.progress_msg with
    | some s => [PollerAction.dispatchProgressMsg s]
    | none => [])
  ++ (match item.progress with
    | some v => [PollerAction.dispatchProgressVal v]
    | none => [])
  ++ (if item.task_started then [PollerAction.dispatchStarted] else [])
  ++ (if item.task_finished then
        [PollerAction.stopTimer, PollerAction.dispatchFinished]
      else [])

/-- The `while True` drain loop of `on_timer` (long_running.py
lines 73-91): call `receive_output`; on `None`, break; otherwise dispatch
the item and loop.  Each `receive_output` call removes one item from the
output queue, so the queue length bounds the iterations; the recursion is
fuelled by that bound. -/
def on_timer_go : Nat → MCState → List PollerAction × MCState
  | 0, st => ([], st)
  | fuel + 1, st =>
    match receive_output st with
    | (none, st1) => ([], st1)
    | (some item, st1) =>
      let rest := on_timer_go fuel st1
      (dispatchItem item ++ rest.1, rest.2)

/-- `LongRunningTaskPanel.on_timer` (long_running.py lines 70-91): drain
the output queue and dispatch every drained item. -/
def on_timer (st : MCState) : List PollerAction × MCState :=
  on_timer_go st.output_queue.length st

/-- Rank of a poller action in the fixed dispatch order of `on_timer`:
log before data before progress message before progress value before
started, then the timer stop and the finished handler. -/
def pollerRank : PollerAction → Nat
  | .appendLog _ => 0
  | .dispatchData _ => 1
  | .dispatchProgressMsg _ => 2
  | .dispatchProgressVal _ => 3
  | .dispatchStarted => 4
  | .stopTimer => 5
  | .dispatchFinished => 6

/-! ## Helper lemmas -/

theorem lookupParam_setParam (k : String) (v : ParamValue) (ps : Params) :
    lookupParam k (setParam k v ps) = some v := by
  induction ps with
  | nil => simp [setParam, lookupParam]
  | cons hd tl ih =>
    obtain ⟨k1, v1⟩ := hd
    by_cases h : k1 = k
    · simp [setParam, lookupParam, h]
    · simp [setParam, lookupParam, h, ih]

theorem work_eq_of_lookup (tool : String) (params : Params)
    (beh : CollabBehaviour) (mc : ParamValue)
    (hmc : lookupParam "mc" params = some mc) :
    work tool params beh =
      (match (workTryBody tool beh).2 with
        | some e =>
            { events := (workTryBody tool beh).1
                ++ [progressItem "Error occurred!" none],
              logged := [e], usedMC := some mc, raised := false }
        | none =>
            { events := (workTryBody tool beh).1
                ++ [progressItem "Process completed!" none],
              logged := [], usedMC := some mc, raised := false }) := by
  unfold work
  rw [hmc]

theorem supLoop_events_eq (descendants : List Nat) (life : Nat)
    (q : List Instruction) (arrivals : List (List Instruction)) :
    (supLoop descendants life q arrivals).events =
      (if (supLoop descendants life q arrivals).killed then
        [progressItem "Process terminated!" none]
      else []) := by
  induction life generalizing q arrivals with
  | zero => simp [supLoop]
  | succ n ih =>
    unfold supLoop
    rcases hq : q ++ arrivals.headD [] with _ | ⟨i, rest⟩
    · simpa using ih [] arrivals.tail
    · cases i
      simp

theorem supLoop_killed_actions (descendants : List Nat) (life : Nat)
    (q : List Instruction) (arrivals : List (List Instruction))
    (hk : (supLoop descendants life q arrivals).killed = true) :
    ∃ polls, (supLoop descendants life q arrivals).actions =
      polls
        ++ [SupAction.sleepTick, SupAction.pollInstr (some Instruction.TERMINATE)]
        ++ descendants.map SupAction.killDescendant
        ++ [SupAction.terminateChild,
            SupAction.emitProgress "Process terminated!"] := by
  induction life generalizing q arrivals with
  | zero => simp [supLoop] at hk
  | succ n ih =>
    unfold supLoop at hk ⊢
    rcases hq : q ++ arrivals.headD [] with _ | ⟨i, rest⟩
    · rw [hq] at hk
      simp only [] at hk ⊢
      obtain ⟨polls, hp⟩ := ih [] arrivals.tail hk
      exact ⟨SupAction.sleepTick :: SupAction.pollInstr none :: polls,
        by simp [hp]⟩
    · cases i
      simp only []
      exact ⟨[], by simp⟩

theorem on_timer_go_spec (l : List OutputItem) (st : MCState)
    (h : st.output_queue = l) :
    on_timer_go l.length st =
      ((l.map dispatchItem).flatten, { st with output_queue := [] }) := by
  induction l generalizing st with
  | nil =>
    obtain ⟨iq, inq, oq, bl, bp, bd, be⟩ := st
    simp only at h
    subst h
    simp [on_timer_go, receive_output]
  | cons a tl ih =>
    obtain ⟨iq, inq, oq, bl, bp, bd, be⟩ := st
    simp only at h
    subst h
    simp only [List.length_cons, on_timer_go, receive_output]
    rw [ih _ rfl]
    simp

/-! ## Claims -/

/-- C7: `receive_output` called when the output queue is empty returns
`None` without blocking (it is a total function of the state) and leaves
the entire state — in particular the input and instruction queues —
unchanged; called when the output queue is non-empty it returns the
oldest queued item (the head, since `put` appends at the tail) and the
new state differs only in the output queue, which loses exactly that
item. -/
theorem receive_output_nonblocking_fifo (st : MCState) :
    (st.output_queue = [] → receive_output st = (none, st)) ∧
    (∀ item rest, st.output_queue = item :: rest →
      receive_output st = (some item, { st with output_queue := rest })) := by
  constructor
  · intro h
    simp [receive_output, h]
  · intro item rest h
    simp [receive_output, h]

/-- C7 witness: both branches of `receive_output_nonblocking_fifo`
evaluated at concrete states. -/
theorem receive_output_nonblocking_fifo_witness :
    receive_output
        { instruction_queue := [Instruction.TERMINATE],
          input_queue := [], output_queue := [], base_log := [],
          base_progress := [], base_data := [], base_errors := [] } =
      (none,
        { instruction_queue := [Instruction.TERMINATE],
          input_queue := [], output_queue := [], base_log := [],
          base_progress := [], base_data := [], base_errors := [] }) ∧
    receive_output
        { instruction_queue := [], input_queue := [],
          output_queue := [logItem "a", startedItem], base_log := [],
          base_progress := [], base_data := [], base_errors := [] } =
      (some (logItem "a"),
        { instruction_queue := [], input_queue := [],
          output_queue := [startedItem], base_log := [],
          base_progress := [], base_data := [], base_errors := [] }) :=
  ⟨(receive_output_nonblocking_fifo _).1 rfl,
   (receive_output_nonblocking_fifo _).2 (logItem "a") [startedItem] rfl⟩

/-- C9: each of the three handler overrides performs the base message
center's own side effect (recorded in the corresponding `base_*` trace)
and appends exactly one `OutputItem` to the output queue, in which only
the matching fields are populated (`log` only; `progress_msg` and
`progress`; `data` only) and both lifecycle flags are false; no other
part of the state changes. -/
theorem handlers_enqueue_exactly_one (st : MCState) (line msg : String)
    (v : Option Nat) (p : Payload) :
    handle_log st line =
      { st with base_log := st.base_log ++ [line],
                output_queue := st.output_queue ++
                  [{ log := some line, data := none, progress_msg := none,
                     progress := none, task_started := false,
                     task_finished := false }] } ∧
    handle_progress st msg v =
      { st with base_progress := st.base_progress ++ [(msg, v)],
                output_queue := st.output_queue ++
                  [{ log := none, data := none, progress_msg := some msg,
                     progress := v, task_started := false,
                     task_finished := false }] } ∧
    handle_data st p =
      { st with base_data := st.base_data ++ [p],
                output_queue := st.output_queue ++
                  [{ log := none, data := some p, progress_msg := none,
                     progress := none, task_started := false,
                     task_finished := false }] } :=
  ⟨rfl, rfl, rfl⟩

/-- C10: the supervisor assigns `params['mc']` to its own message center
after dequeuing and before spawning the child (the `assignMC` action
precedes `spawnChild` in the iteration's action trace), overwriting any
caller-supplied `'mc'` binding; consequently the unguarded
`params['mc']` lookup at the start of `work` always succeeds (`work`
never raises) and resolves to the supervisor's own message center, so
every event the child emits goes through it. -/
theorem supervisor_mc_assignment_safe (mcId : Nat) (item : InputItem)
    (childEvents : List OutputItem) (life : Nat)
    (instrQ : List Instruction) (arrivals : List (List Instruction))
    (descendants : List Nat) (tool : String) (beh : CollabBehaviour) :
    lookupParam "mc"
        (taskIteration mcId item childEvents life instrQ arrivals
          descendants).childParams = some (ParamValue.mcRef mcId) ∧
    (work tool
        (taskIteration mcId item childEvents life instrQ arrivals
          descendants).childParams beh).usedMC =
      some (ParamValue.mcRef mcId) ∧
    (work tool
        (taskIteration mcId item childEvents life instrQ arrivals
          descendants).childParams beh).raised = false ∧
    (taskIteration mcId item childEvents life instrQ arrivals
        descendants).actions.take 3 =
      [SupAction.assignMC, SupAction.emitStarted, SupAction.spawnChild] := by
  have hmc : lookupParam "mc"
      (taskIteration mcId item childEvents life instrQ arrivals
        descendants).childParams = some (ParamValue.mcRef mcId) :=
    lookupParam_setParam _ _ _
  refine ⟨hmc, ?_, ?_, rfl⟩
  · rw [work_eq_of_lookup _ _ _ _ hmc]
    cases (workTryBody tool beh).2 <;> simp
  · rw [work_eq_of_lookup _ _ _ _ hmc]
    cases (workTryBody tool beh).2 <;> simp

/-- C6 counterexample: the claim states the child process is spawned
first and only then is `task_started` emitted; in the code
(`task.py` lines 122-125) `signal_task_started()` is called before
`Process(...).start()`, so at this concrete input `spawnChild` does not
precede `emitStarted` in the supervisor's action trace. -/
theorem started_before_spawn_counterexample :
    ¬ ((taskIteration 0 (InputItem.mk "inference" []) [] 0 [] [] []).actions.indexOf
          SupAction.spawnChild <
        (taskIteration 0 (InputItem.mk "inference" []) [] 0 [] [] []).actions.indexOf
          SupAction.emitStarted) := by
  decide

/-- C6 amended: in the Starting step the supervisor first assigns
`params['mc']`, then emits `task_started`, and then spawns the child
process — `task_started` is emitted before the child process begins. -/
theorem assign_then_started_then_spawn (mcId : Nat) (item : InputItem)
    (childEvents : List OutputItem) (life : Nat)
    (instrQ : List Instruction) (arrivals : List (List Instruction))
    (descendants : List Nat) :
    (taskIteration mcId item childEvents life instrQ arrivals
        descendants).actions.take 3 =
      [SupAction.assignMC, SupAction.emitStarted, SupAction.spawnChild] :=
  rfl

/-- C4 counterexample: for the unrecognized tool name `"bogus"`, `work`
falls through the `if`/`elif` chain without raising, so the `else`
branch emits `'Process completed!'` — it does not produce the claimed
error behaviour (`'Error occurred!'` is never emitted). -/
theorem unrecognized_tool_counterexample :
    (work "bogus" [("mc", ParamValue.mcRef 0)]
        { events := [], error := none }).events =
      [progressItem "Process completed!" none] ∧
    ¬ progressItem "Error occurred!" none ∈
        (work "bogus" [("mc", ParamValue.mcRef 0)]
          { events := [], error := none }).events := by
  decide

/-- C4 amended: for every tool name not in the recognized dispatch set
(with `params['mc']` present), `work` invokes no collaborator and runs
the success path: it emits exactly the progress event
`'Process completed!'`, logs nothing, and raises nothing — the same
observable behaviour as a successful run, not as a collaborator
failure. -/
theorem unrecognized_tool_completes (tool : String) (params : Params)
    (beh : CollabBehaviour) (mc : ParamValue)
    (htool : ¬ tool ∈ recognizedTools)
    (hmc : lookupParam "mc" params = some mc) :
    (work tool params beh).events = [progressItem "Process completed!" none] ∧
    (work tool params beh).logged = [] ∧
    (work tool params beh).raised = false := by
  simp only [recognizedTools, List.mem_cons, List.not_mem_nil, or_false,
    not_or] at htool
  obtain ⟨h1, h2, h3, h4, h5, h6⟩ := htool
  have hbody : workTryBody tool beh = ([], none) := by
    simp [workTryBody, h1, h2, h3, h4, h5, h6]
  rw [work_eq_of_lookup _ _ _ _ hmc, hbody]
  simp

/-- C4 amended witness: `unrecognized_tool_completes` applied at the
concrete tool name `"unknown"`. -/
theorem unrecognized_tool_completes_witness :
    (work "unknown" [("mc", ParamValue.mcRef 1)]
        { events := [ChildEmit.logLine "x"], error := none }).events =
      [progressItem "Process completed!" none] :=
  (unrecognized_tool_completes "unknown" [("mc", ParamValue.mcRef 1)]
    { events := [ChildEmit.logLine "x"], error := none }
    (ParamValue.mcRef 1) (by decide) rfl).1

theorem getLast?_append_singleton {α : Type} (l : List α) (a : α) :
    (l ++ [a]).getLast? = some a :=
  (List.getLast?_append_cons l a []).trans rfl

theorem getLast?_append_pair {α : Type} (l : List α) (a b : α) :
    (l ++ [a, b]).getLast? = some b :=
  (List.getLast?_append_cons l a [b]).trans rfl

theorem outputs_count_one (mid : List OutputItem)
    (hmid : ∀ e ∈ mid, e.task_started = false ∧ e.task_finished = false) :
    (startedItem :: (mid ++ [finishedItem])).countP
        (fun e => e.task_started) = 1 ∧
    (startedItem :: (mid ++ [finishedItem])).countP
        (fun e => e.task_finished) = 1 := by
  have hA : mid.countP (fun e => e.task_started) = 0 :=
    List.countP_eq_zero.2 fun e he => by simp [(hmid e he).1]
  have hB : mid.countP (fun e => e.task_finished) = 0 :=
    List.countP_eq_zero.2 fun e he => by simp [(hmid e he).2]
  constructor <;>
    simp [List.countP_cons, List.countP_append, hA, hB, startedItem,
      finishedItem]

theorem outputs_index_order (mid : List OutputItem)
    (hmid : ∀ e ∈ mid, e.task_started = false ∧ e.task_finished = false)
    (i j : Nat) (hi : i < (startedItem :: (mid ++ [finishedItem])).length)
    (hj : j < (startedItem :: (mid ++ [finishedItem])).length)
    (hsi : (startedItem :: (mid ++ [finishedItem]))[i].task_started = true)
    (hfj : (startedItem :: (mid ++ [finishedItem]))[j].task_finished = true) :
    i < j := by
  have hj0 : j ≠ 0 := by
    intro h
    subst h
    simp [startedItem] at hfj
  have hi0 : i = 0 := by
    by_contra h
    obtain ⟨i', rfl⟩ : ∃ i', i = i' + 1 := ⟨i - 1, by omega⟩
    have hb : i' < (mid ++ [finishedItem]).length := by simpa using hi
    rw [List.getElem_cons_succ] at hsi
    have hm : (mid ++ [finishedItem])[i'] ∈ mid ++ [finishedItem] :=
      List.getElem_mem hb
    rcases List.mem_append.1 hm with hmm | hmm
    · rw [(hmid _ hmm).1] at hsi
      exact Bool.false_ne_true hsi
    · simp only [List.mem_singleton] at hmm
      rw [hmm] at hsi
      simp [finishedItem] at hsi
  omega

/-- C3: if the dispatched collaborator raises, `work` catches the
exception: it emits the collaborator's events followed by exactly one
progress event `'Error occurred!'`, passes the error to `mc.log_error`,
and lets no exception escape (`raised = false`); and — regardless of the
run's outcome — every supervisor iteration ends by emitting
`task_finished` as the last item it puts on the output queue and then
returns (its action trace ends with `emitFinished`, after which the loop
continues with the next `receive_input`). -/
theorem collab_exception_contained (tool : String) (params : Params)
    (beh : CollabBehaviour) (e : String) (mc : ParamValue)
    (htool : tool ∈ recognizedTools) (herr : beh.error = some e)
    (hmc : lookupParam "mc" params = some mc) :
    (work tool params beh).events =
      beh.events.map ChildEmit.toItem
        ++ [progressItem "Error occurred!" none] ∧
    (work tool params beh).logged = [e] ∧
    (work tool params beh).raised = false ∧
    ∀ (mcId : Nat) (item : InputItem) (childEvents : List OutputItem)
      (life : Nat) (instrQ : List Instruction)
      (arrivals : List (List Instruction)) (descendants : List Nat),
      (taskIteration mcId item childEvents life instrQ arrivals
          descendants).outputs.getLast? = some finishedItem ∧
      (taskIteration mcId item childEvents life instrQ arrivals
          descendants).actions.getLast? = some SupAction.emitFinished := by
  have hbody : workTryBody tool beh =
      (beh.events.map ChildEmit.toItem, some e) := by
    simp only [recognizedTools, List.mem_cons, List.not_mem_nil,
      or_false] at htool
    rcases htool with h | h | h | h | h | h <;> subst h <;>
      simp [workTryBody, herr]
  rw [work_eq_of_lookup _ _ _ _ hmc, hbody]
  refine ⟨rfl, rfl, rfl, ?_⟩
  intro mcId item childEvents life instrQ arrivals descendants
  constructor
  · exact getLast?_append_singleton
      (startedItem ::
        (childEvents ++ (supLoop descendants life instrQ arrivals).events))
      finishedItem
  · exact getLast?_append_pair
      ([SupAction.assignMC, SupAction.emitStarted, SupAction.spawnChild]
        ++ (supLoop descendants life instrQ arrivals).actions)
      SupAction.joinChild SupAction.emitFinished

/-- C3 witness: `collab_exception_contained` applied at the concrete tool
`"inference"`, a collaborator that emits one log line and raises
`"boom"`, and params carrying the message-center reference. -/
theorem collab_exception_contained_witness :
    (work "inference" [("mc", ParamValue.mcRef 0)]
        { events := [ChildEmit.logLine "x"], error := some "boom" }).events =
      [ChildEmit.logLine "x"].map ChildEmit.toItem
        ++ [progressItem "Error occurred!" none] :=
  (collab_exception_contained "inference" [("mc", ParamValue.mcRef 0)]
    { events := [ChildEmit.logLine "x"], error := some "boom" } "boom"
    (ParamValue.mcRef 0) (by decide) rfl rfl).1

/-- C1: per dequeued input item, as long as the child's own emissions
carry no lifecycle flag (which is all `work` can emit through the
handlers), the items enqueued on the output queue during the iteration
contain exactly one event with `task_started = true` and exactly one
with `task_finished = true`, and every started event's queue position is
strictly before every finished event's. -/
theorem lifecycle_pairing (mcId : Nat) (item : InputItem)
    (childEvents : List OutputItem) (life : Nat)
    (instrQ : List Instruction) (arrivals : List (List Instruction))
    (descendants : List Nat)
    (hchild : ∀ e ∈ childEvents,
      e.task_started = false ∧ e.task_finished = false) :
    (taskIteration mcId item childEvents life instrQ arrivals
        descendants).outputs.countP (fun e => e.task_started) = 1 ∧
    (taskIteration mcId item childEvents life instrQ arrivals
        descendants).outputs.countP (fun e => e.task_finished) = 1 ∧
    ∀ (i j : Nat)
      (hi : i < (taskIteration mcId item childEvents life instrQ arrivals
        descendants).outputs.length)
      (hj : j < (taskIteration mcId item childEvents life instrQ arrivals
        descendants).outputs.length),
      ((taskIteration mcId item childEvents life instrQ arrivals
        descendants).outputs[i]).task_started = true →
      ((taskIteration mcId item childEvents life instrQ arrivals
        descendants).outputs[j]).task_finished = true → i < j := by
  have hmid : ∀ e ∈ childEvents
      ++ (supLoop descendants life instrQ arrivals).events,
      e.task_started = false ∧ e.task_finished = false := by
    intro e he
    rcases List.mem_append.1 he with h | h
    · exact hchild e h
    · rw [supLoop_events_eq] at h
      cases hk : (supLoop descendants life instrQ arrivals).killed <;>
        rw [hk] at h <;> simp at h
      subst h
      exact ⟨rfl, rfl⟩
  exact ⟨(outputs_count_one _ hmid).1, (outputs_count_one _ hmid).2,
    fun i j hi hj hsi hfj => outputs_index_order _ hmid i j hi hj hsi hfj⟩

/-- C1 witness: `lifecycle_pairing` at a concrete iteration in which the
child emits one log line and one progress message. -/
theorem lifecycle_pairing_witness :
    (taskIteration 0 (InputItem.mk "inference" [])
        [logItem "l", progressItem "p" (some 3)] 2 [] [] []).outputs.countP
      (fun e => e.task_started) = 1 :=
  (lifecycle_pairing 0 (InputItem.mk "inference" [])
    [logItem "l", progressItem "p" (some 3)] 2 [] [] [] (by decide)).1

/-- C5: when the supervisor's polling loop observes a TERMINATE
instruction while the child is still alive (the iteration's `killed`
flag), the action trace ends with: kill every descendant process (in
`psutil` enumeration order), then terminate the direct child, then emit
the progress message, then join and emit `task_finished`; the iteration
puts exactly one `'Process terminated!'` progress event on the output
queue (provided the child itself emitted none), placed immediately
before the `task_finished` event. -/
theorem terminate_kills_tree_in_order (mcId : Nat) (item : InputItem)
    (childEvents : List OutputItem) (life : Nat)
    (instrQ : List Instruction) (arrivals : List (List Instruction))
    (descendants : List Nat)
    (hkill : (taskIteration mcId item childEvents life instrQ arrivals
      descendants).killed = true)
    (hchild : ∀ e ∈ childEvents,
      e.progress_msg ≠ some "Process terminated!") :
    (∃ polls,
      (taskIteration mcId item childEvents life instrQ arrivals
          descendants).actions =
        [SupAction.assignMC, SupAction.emitStarted, SupAction.spawnChild]
          ++ polls
          ++ [SupAction.sleepTick,
              SupAction.pollInstr (some Instruction.TERMINATE)]
          ++ descendants.map SupAction.killDescendant
          ++ [SupAction.terminateChild,
              SupAction.emitProgress "Process terminated!",
              SupAction.joinChild, SupAction.emitFinished]) ∧
    (taskIteration mcId item childEvents life instrQ arrivals
        descendants).outputs =
      (startedItem :: childEvents)
        ++ [progressItem "Process terminated!" none, finishedItem] ∧
    (taskIteration mcId item childEvents life instrQ arrivals
        descendants).outputs.countP
      (fun e => e.progress_msg == some "Process terminated!") = 1 := by
  have hk : (supLoop descendants life instrQ arrivals).killed = true := hkill
  obtain ⟨polls, hp⟩ := supLoop_killed_actions descendants life instrQ
    arrivals hk
  have hev : (supLoop descendants life instrQ arrivals).events =
      [progressItem "Process terminated!" none] := by
    simp [supLoop_events_eq, hk]
  have hc : childEvents.countP
      (fun e => e.progress_msg == some "Process terminated!") = 0 :=
    List.countP_eq_zero.2 fun e he => by simpa using hchild e he
  refine ⟨⟨polls, ?_⟩, ?_, ?_⟩
  · simp [taskIteration, hp, List.append_assoc]
  · simp [taskIteration, hev, List.append_assoc]
  · simp [taskIteration, hev, List.countP_cons, List.countP_append, hc,
      startedItem, finishedItem, progressItem]

/-- C5 witness: `terminate_kills_tree_in_order` at a concrete run — a
TERMINATE already queued at the first poll, a silent child, and two
descendant processes. -/
theorem terminate_kills_tree_in_order_witness :
    (taskIteration 0 (InputItem.mk "inference" []) [] 1
        [Instruction.TERMINATE] [] [5, 6]).outputs.countP
      (fun e => e.progress_msg == some "Process terminated!") = 1 :=
  (terminate_kills_tree_in_order 0 (InputItem.mk "inference" []) [] 1
    [Instruction.TERMINATE] [] [5, 6] rfl (by decide)).2.2

/-- C2: the claim fails on the code.  Two TERMINATE instructions sent
while the first task runs leave one instruction behind in the queue
(the supervisor stops polling after consuming the first), and that stale
instruction is consumed at the next task's first poll, killing the next
task's child — whereas with a clean instruction queue the same next task
runs to natural completion.  This evaluates the supervisor model at that
schedule: first iteration killed with leftover `[TERMINATE]`, second
iteration killed by the leftover alone, and the contrast run not
killed. -/
theorem stale_terminate_cancels_next_task :
    (taskIteration 0 (InputItem.mk "inference" []) [] 3 []
        [[Instruction.TERMINATE, Instruction.TERMINATE]] []).killed
      = true ∧
    (taskIteration 0 (InputItem.mk "inference" []) [] 3 []
        [[Instruction.TERMINATE, Instruction.TERMINATE]] []).instrQ
      = [Instruction.TERMINATE] ∧
    (taskIteration 0 (InputItem.mk "load-task" []) [] 3
        [Instruction.TERMINATE] [] []).killed = true ∧
    (taskIteration 0 (InputItem.mk "load-task" []) [] 3
        [Instruction.TERMINATE] [] []).outputs.countP
      (fun e => e.progress_msg == some "Process terminated!") = 1 ∧
    (taskIteration 0 (InputItem.mk "load-task" []) [] 3 [] [] []).killed
      = false := by
  decide

theorem supLoop_no_instr_not_killed (descendants : List Nat) (life : Nat) :
    (supLoop descendants life [] []).killed = false := by
  induction life with
  | zero => rfl
  | succ n ih => simpa [supLoop] using ih

/-- C2 amended: an unconsumed TERMINATE — sent while no task was running,
or the second of two sent during one task — stays in the instruction
queue; the supervisor dequeues it only during a subsequent task's polling
loop, where it cancels that task (whenever the child survives to the
first poll).  Only a task run with a genuinely empty instruction queue
and no instruction sent during it is never cancelled. -/
theorem stale_terminate_observed_next_task (mcId : Nat) (item : InputItem)
    (childEvents : List OutputItem) (life : Nat) (rest : List Instruction)
    (arrivals : List (List Instruction)) (descendants : List Nat)
    (hlife : 1 ≤ life) :
    (taskIteration mcId item childEvents life
        (Instruction.TERMINATE :: rest) arrivals descendants).killed
      = true ∧
    (taskIteration mcId item childEvents life
        (Instruction.TERMINATE :: rest) arrivals descendants).instrQ
      = rest ++ arrivals.headD [] ∧
    ∀ life2, (taskIteration mcId item childEvents life2 [] []
        descendants).killed = false := by
  obtain ⟨l, rfl⟩ : ∃ l, life = l + 1 := ⟨life - 1, by omega⟩
  exact ⟨rfl, rfl, fun life2 => supLoop_no_instr_not_killed descendants life2⟩

/-- C2 amended witness: `stale_terminate_observed_next_task` at a
concrete next task beginning with one leftover TERMINATE queued. -/
theorem stale_terminate_observed_next_task_witness :
    (taskIteration 0 (InputItem.mk "load-task" []) [] 3
        [Instruction.TERMINATE] [] []).killed = true :=
  (stale_terminate_observed_next_task 0 (InputItem.mk "load-task" []) [] 3
    [] [] [] (by decide)).1

/-- C8: `on_timer` drains the output queue by looping `receive_output`
until it yields none — its action trace is the concatenation of each
queued event's dispatch, in queue order, and afterwards the output queue
is empty while the rest of the state is untouched; for every event the
dispatch actions occur in the fixed field order log → data →
progress message → progress value → task started → (timer stop, task
finished handler), captured by strictly increasing `pollerRank`, each
action present exactly when its field is populated; in particular the
timer is stopped exactly on events with `task_finished = true`. -/
theorem on_timer_drain_dispatch_order (st : MCState) :
    (on_timer st).1 = (st.output_queue.map dispatchItem).flatten ∧
    (on_timer st).2 = { st with output_queue := [] } ∧
    (∀ item : OutputItem,
      (dispatchItem item).Pairwise (fun a b => pollerRank a < pollerRank b)) ∧
    (∀ item : OutputItem,
      PollerAction.stopTimer ∈ dispatchItem item ↔
        item.task_finished = true) ∧
    (∀ (item : OutputItem) (s : String),
      PollerAction.appendLog s ∈ dispatchItem item ↔ item.log = some s) ∧
    (∀ (item : OutputItem) (p : Payload),
      PollerAction.dispatchData p ∈ dispatchItem item ↔
        item.data = some p) ∧
    (∀ (item : OutputItem) (s : String),
      PollerAction.dispatchProgressMsg s ∈ dispatchItem item ↔
        item.progress_msg = some s) ∧
    (∀ (item : OutputItem) (v : Nat),
      PollerAction.dispatchProgressVal v ∈ dispatchItem item ↔
        item.progress = some v) ∧
    (∀ item : OutputItem,
      PollerAction.dispatchStarted ∈ dispatchItem item ↔
        item.task_started = true) ∧
    (∀ item : OutputItem,
      PollerAction.dispatchFinished ∈ dispatchItem item ↔
        item.task_finished = true) := by
  refine ⟨congrArg Prod.fst (on_timer_go_spec st.output_queue st rfl),
    congrArg Prod.snd (on_timer_go_spec st.output_queue st rfl),
    ?_, ?_, ?_, ?_, ?_, ?_, ?_, ?_⟩
  · intro item
    obtain ⟨lg, da, pm, pv, ts, tf⟩ := item
    cases lg <;> cases da <;> cases pm <;> cases pv <;> cases ts <;>
      cases tf <;> simp [dispatchItem, pollerRank]
  · intro item
    obtain ⟨lg, da, pm, pv, ts, tf⟩ := item
    cases lg <;> cases da <;> cases pm <;> cases pv <;> cases ts <;>
      cases tf <;> simp [dispatchItem]
  · intro item s
    obtain ⟨lg, da, pm, pv, ts, tf⟩ := item
    cases lg <;> cases da <;> cases pm <;> cases pv <;> cases ts <;>
      cases tf <;> simp [dispatchItem, eq_comm]
  · intro item p
    obtain ⟨lg, da, pm, pv, ts, tf⟩ := item
    cases lg <;> cases da <;> cases pm <;> cases pv <;> cases ts <;>
      cases tf <;> simp [dispatchItem, eq_comm]
  · intro item s
    obtain ⟨lg, da, pm, pv, ts, tf⟩ := item
    cases lg <;> cases da <;> cases pm <;> cases pv <;> cases ts <;>
      cases tf <;> simp [dispatchItem, eq_comm]
  · intro item v
    obtain ⟨lg, da, pm, pv, ts, tf⟩ := item
    cases lg <;> cases da <;> cases pm <;> cases pv <;> cases ts <;>
      cases tf <;> simp [dispatchItem, eq_comm]
  · intro item
    obtain ⟨lg, da, pm, pv, ts, tf⟩ := item
    cases lg <;> cases da <;> cases pm <;> cases pv <;> cases ts <;>
      cases tf <;> simp [dispatchItem]
  · intro item
    obtain ⟨lg, da, pm, pv, ts, tf⟩ := item
    cases lg <;> cases da <;> cases pm <;> cases pv <;> cases ts <;>
      cases tf <;> simp [dispatchItem]

end ByaseGui
